import Mathlib

/-!
Verification of the `got` content-addressed object store (src/main.rs).

A shallow embedding of the storage core of the `got` program: record
framing, SHA-1 digests, the object store write/read path, tree payload
scanning, the tree builder and the commit builder.  Bytes are modelled as
natural numbers (values below 256 in every reachable state); machine
arithmetic is taken modulo `2 ^ 32` where the SHA-1 compression function
needs it.  Streams and files are `List Nat`; fallible code returns
`Except`; a Rust `panic!` / `expect` / out-of-bounds slice is modelled as
a dedicated error constructor so that clean error returns and process
aborts stay distinguishable.  The zlib compression layer is modelled as
the identity on byte lists (it is a bijection between what is written and
what a later read decompresses, and no claim concerns the compressed
image itself).
-/

namespace Got

/-- UTF-8 bytes of an ASCII string literal (all literals used by the
program are ASCII, where each char is one byte). -/
def ascii (s : String) : List Nat := s.data.map Char.toNat

/-- Truncation to a 32-bit word, the wrap-around of Rust `u32` arithmetic
inside the SHA-1 compression function. -/
def w32 (n : Nat) : Nat := n % 4294967296

/-- Left rotation of a 32-bit word by `s` places. -/
def rotl (s n : Nat) : Nat := w32 (n * 2 ^ s + n / 2 ^ (32 - s))

/-- Bitwise complement of a 32-bit word. -/
def notW (n : Nat) : Nat := Nat.xor n 4294967295

/-- The `k` bytes of `n`, most significant first. -/
def bigEndianBytes : Nat → Nat → List Nat
  | 0, _ => []
  | k + 1, n => bigEndianBytes k (n / 256) ++ [n % 256]

/-- SHA-1 message padding: a `0x80` byte, zeros to 56 mod 64, then the
bit length as 8 big-endian bytes. -/
def sha1Pad (msg : List Nat) : List Nat :=
  msg ++ 128 :: List.replicate ((119 - msg.length % 64) % 64) 0
      ++ bigEndianBytes 8 (8 * msg.length)

/-- Split a byte list into 64-byte blocks (fuel-driven structural
recursion; the fuel passed in is always at least the block count). -/
def chunks64 : Nat → List Nat → List (List Nat)
  | 0, _ => []
  | _ + 1, [] => []
  | fuel + 1, l => l.take 64 :: chunks64 fuel (l.drop 64)

/-- Big-endian 32-bit words of a 64-byte block. -/
def beWords : List Nat → List Nat
  | a :: b :: c :: d :: rest => (((a * 256 + b) * 256 + c) * 256 + d) :: beWords rest
  | _ => []

/-- Extend the 16-word schedule to 80 words; the accumulator holds the
words most recent first, so `w[i-3]` sits at index 2, `w[i-8]` at 7,
`w[i-14]` at 13 and `w[i-16]` at 15. -/
def schedExtend : Nat → List Nat → List Nat
  | 0, rev => rev
  | n + 1, rev =>
      let w := rotl 1 (Nat.xor (Nat.xor (rev.getD 2 0) (rev.getD 7 0))
        (Nat.xor (rev.getD 13 0) (rev.getD 15 0)))
      schedExtend n (w :: rev)

/-- The 80-word message schedule of one block. -/
def sha1Sched (block : List Nat) : List Nat :=
  (schedExtend 64 (beWords block).reverse).reverse

/-- Round-dependent boolean function of SHA-1. -/
def sha1F (i b c d : Nat) : Nat :=
  if i < 20 then Nat.lor (Nat.land b c) (Nat.land (notW b) d)
  else if i < 40 then Nat.xor (Nat.xor b c) d
  else if i < 60 then Nat.lor (Nat.lor (Nat.land b c) (Nat.land b d)) (Nat.land c d)
  else Nat.xor (Nat.xor b c) d

/-- Round-dependent constant of SHA-1. -/
def sha1K (i : Nat) : Nat :=
  if i < 20 then 1518500249
  else if i < 40 then 1859775393
  else if i < 60 then 2400959708
  else 3395469782

/-- One SHA-1 round on the five-word state. -/
def sha1Round (st : Nat × Nat × Nat × Nat × Nat) (iw : Nat × Nat) :
    Nat × Nat × Nat × Nat × Nat :=
  let (a, b, c, d, e) := st
  let (i, w) := iw
  (w32 (rotl 5 a + sha1F i b c d + e + sha1K i + w), a, rotl 30 b, c, d)

/-- Compression of one 64-byte block into the running hash state. -/
def sha1Block (h : Nat × Nat × Nat × Nat × Nat) (block : List Nat) :
    Nat × Nat × Nat × Nat × Nat :=
  let (h0, h1, h2, h3, h4) := h
  let (a, b, c, d, e) := (sha1Sched block).enum.foldl sha1Round (h0, h1, h2, h3, h4)
  (w32 (h0 + a), w32 (h1 + b), w32 (h2 + c), w32 (h3 + d), w32 (h4 + e))

/-- SHA-1 of a byte list, as the 20 digest bytes.  This is the fixed
160-bit hash `Sha1` used by `Object::write`. -/
def sha1 (msg : List Nat) : List Nat :=
  let padded := sha1Pad msg
  let st := (chunks64 (padded.length + 1) padded).foldl sha1Block
    (1732584193, 4023233417, 2562383102, 271733878, 3285377520)
  bigEndianBytes 4 st.1 ++ bigEndianBytes 4 st.2.1 ++ bigEndianBytes 4 st.2.2.1
    ++ bigEndianBytes 4 st.2.2.2.1 ++ bigEndianBytes 4 st.2.2.2.2

/-- Lowercase hex digit. -/
def hexDigitChar (n : Nat) : Char :=
  if n < 10 then Char.ofNat (48 + n) else Char.ofNat (87 + n)

/-- Lowercase hex rendering of a byte list, two characters per byte:
`hex::encode`. -/
def hexOfBytes (bs : List Nat) : String :=
  String.mk (bs.foldr (fun b acc => hexDigitChar (b / 16 % 16) :: hexDigitChar (b % 16) :: acc) [])

/-- The four record kinds recognised by the program (`enum Kind`). -/
inductive Kind where
  | blob
  | commit
  | tree
  | tag
deriving DecidableEq, Repr

/-- The tag string of a kind, as printed into headers. -/
def kindStr : Kind → String
  | .blob => "blob"
  | .commit => "commit"
  | .tree => "tree"
  | .tag => "tag"

/-- The kind match of `Object::read` / `Object::write` on a header token
(bytes of the token; unknown tokens are rejected). -/
def kindOfBytes (l : List Nat) : Option Kind :=
  if l = ascii "blob" then some .blob
  else if l = ascii "commit" then some .commit
  else if l = ascii "tree" then some .tree
  else if l = ascii "tag" then some .tag
  else none

/-- ASCII decimal digits of `n` (fuel-driven; the fuel `n + 1` always
suffices since `n / 10 < n` for `n ≥ 10`). -/
def decDigitsAux : Nat → Nat → List Nat
  | 0, _ => []
  | fuel + 1, n => if n < 10 then [48 + n] else decDigitsAux fuel (n / 10) ++ [48 + n % 10]

/-- ASCII bytes of the decimal rendering of `n`, as `format!("{}", n)`
produces. -/
def decimalAscii (n : Nat) : List Nat := decDigitsAux (n + 1) n

/-- Canonical record bytes `"<kind> <decimal payload length>\0<payload>"`.
This framing is built identically in the blob branch of `Object::write`
(line 179), in `write_tree` (lines 350–355) and in `commit_tree`
(lines 398–409). -/
def encodeRecord (k : Kind) (p : List Nat) : List Nat :=
  ascii (kindStr k) ++ [32] ++ decimalAscii p.length ++ [0] ++ p

/-- Rust `BufRead::read_until(0)`: every byte up to and including the first
NUL, or the whole input when it holds no NUL.  `Object::write`'s blob
branch reads the file with this, so a file's bytes after its first NUL
never reach the payload. -/
def readUntilNul : List Nat → List Nat
  | [] => []
  | b :: rest => if b = 0 then [0] else b :: readUntilNul rest

/-- The canonical buffer assembled by `Object::write`'s blob branch
(lines 175–182) for a file with the given bytes: the header length is
`vec.len()`, the number of bytes `read_until` produced. -/
def hashObjectBuf (file : List Nat) : List Nat :=
  encodeRecord .blob (readUntilNul file)

/-- Index of the first NUL byte, if any. -/
def findNul : List Nat → Option Nat
  | [] => none
  | b :: rest => if b = 0 then some 0 else (findNul rest).map (· + 1)

/-- Continuation byte of a multi-byte UTF-8 sequence. -/
def isCont (b : Nat) : Bool := 128 ≤ b && b ≤ 191

/-- Strict UTF-8 validity of a byte list, as Rust's `str::from_utf8`
checks it (overlong forms, surrogates and values beyond U+10FFFF are
rejected). -/
def isValidUtf8 : List Nat → Bool
  | [] => true
  | b :: rest =>
    if b ≤ 127 then isValidUtf8 rest
    else if 194 ≤ b && b ≤ 223 then
      match rest with
      | c1 :: r => isCont c1 && isValidUtf8 r
      | [] => false
    else if b = 224 then
      match rest with
      | c1 :: c2 :: r => (160 ≤ c1 && c1 ≤ 191) && isCont c2 && isValidUtf8 r
      | _ => false
    else if 225 ≤ b && b ≤ 236 then
      match rest with
      | c1 :: c2 :: r => isCont c1 && isCont c2 && isValidUtf8 r
      | _ => false
    else if b = 237 then
      match rest with
      | c1 :: c2 :: r => (128 ≤ c1 && c1 ≤ 159) && isCont c2 && isValidUtf8 r
      | _ => false
    else if 238 ≤ b && b ≤ 239 then
      match rest with
      | c1 :: c2 :: r => isCont c1 && isCont c2 && isValidUtf8 r
      | _ => false
    else if b = 240 then
      match rest with
      | c1 :: c2 :: c3 :: r => (144 ≤ c1 && c1 ≤ 191) && isCont c2 && isCont c3 && isValidUtf8 r
      | _ => false
    else if 241 ≤ b && b ≤ 243 then
      match rest with
      | c1 :: c2 :: c3 :: r => isCont c1 && isCont c2 && isCont c3 && isValidUtf8 r
      | _ => false
    else if b = 244 then
      match rest with
      | c1 :: c2 :: c3 :: r => (128 ≤ c1 && c1 ≤ 143) && isCont c2 && isCont c3 && isValidUtf8 r
      | _ => false
    else false

/-- Rust `str::split_once` at the first occurrence of byte `sep`: the pieces
before and after it, or `none` when it does not occur. -/
def splitAtByte (sep : Nat) : List Nat → Option (List Nat × List Nat)
  | [] => none
  | b :: rest =>
    if b = sep then some ([], rest)
    else (splitAtByte sep rest).map (fun p => (b :: p.1, p.2))

/-- Digits-only decimal parse used under `parseUsize`. -/
def parseUsizeDigits (l : List Nat) : Option Nat :=
  if l = [] then none
  else
    l.foldl
      (fun acc d =>
        match acc with
        | none => none
        | some n => if 48 ≤ d && d ≤ 57 then some (n * 10 + (d - 48)) else none)
      (some 0)

/-- Rust `str::parse::<usize>` on the bytes of the token: an optional
leading `+`, then one or more decimal digits, value at most
`usize::MAX` (64-bit). -/
def parseUsize (l : List Nat) : Option Nat :=
  let digits :=
    match l with
    | 43 :: rest => rest
    | _ => l
  match parseUsizeDigits digits with
  | some n => if n ≤ 18446744073709551615 then some n else none
  | none => none

/-- Value of one hex digit for `hex::decode`, which accepts pairs of
hex digits in either case and rejects odd length and non-hex
characters. -/
def hexVal (c : Char) : Option Nat :=
  if 48 ≤ c.toNat && c.toNat ≤ 57 then some (c.toNat - 48)
  else if 97 ≤ c.toNat && c.toNat ≤ 102 then some (c.toNat - 87)
  else if 65 ≤ c.toNat && c.toNat ≤ 70 then some (c.toNat - 55)
  else none

/-- See `hexVal`; decodes two characters per byte. -/
def hexDecodeList : List Char → Option (List Nat)
  | [] => some []
  | [_] => none
  | c1 :: c2 :: rest =>
    match hexVal c1, hexVal c2, hexDecodeList rest with
    | some hi, some lo, some bs => some ((hi * 16 + lo) :: bs)
    | _, _, _ => none

/-- Rust `hex::decode` on a string. -/
def hexDecode (s : String) : Option (List Nat) := hexDecodeList s.data

/-- The on-disk object store: a map from file path to the stored
(compressed) bytes.  `fs::write` overwrites, and `create_dir_all` is
idempotent, so the file map is the whole observable state. -/
def Store := String → Option (List Nat)

/-- A store with no objects. -/
def emptyStore : Store := fun _ => none

/-- Rust `fs::write`: insert or overwrite one path. -/
def updateStore (s : Store) (p : String) (v : List Nat) : Store :=
  fun q => if q = p then some v else s q

/-- The fan-out path `".got/objects/" + hex[..2] + "/" + hex[2..]` used
by both `Object::read` and `Object::write`. -/
def objectPath (hexDigest : String) : String :=
  ".got/objects/" ++ String.mk (hexDigest.data.take 2) ++ "/"
    ++ String.mk (hexDigest.data.drop 2)

/-- The span handed to the SHA-1 hasher by `Object::write`:
`hasher.update(&buf[..size])` where `size` is the value returned by the
single `encoder.write(&buf)` call (line 187).  The `Write` contract only
guarantees `size ≤ buf.len()`; a buffering writer may accept less. -/
def hashedSpan (buf : List Nat) (n : Nat) : List Nat := buf.take n

/-- Result of the persisting tail of `Object::write` (lines 185–202). -/
structure WriteOut where
  store : Store
  digestBytes : List Nat
  digestHex : String
  path : String
  stored : List Nat
  size : Nat

/-- Lines 185–202 of `Object::write`: one `encoder.write(&buf)` call
returning `n`, `hasher.update(&buf[..n])`, `encoder.finish()`, then
`fs::create_dir_all` and `fs::write` at the fan-out path of the hex
digest.  The encoder only ever received the first `n` bytes, so the
persisted (zlib-modelled-as-identity) image is that same span. -/
def objectWriteBuf (store : Store) (buf : List Nat) (n : Nat) : WriteOut :=
  let hashed := hashedSpan buf n
  let digest := sha1 hashed
  let hex := hexOfBytes digest
  let path := objectPath hex
  let compressed := buf.take n
  { store := updateStore store path compressed
    digestBytes := digest
    digestHex := hex
    path := path
    stored := compressed
    size := n }

/-- The tail of `Object::write` under flate2's observed behaviour, where the single
`encoder.write` call accepts the whole buffer.  `write_tree` and
`commit_tree` are modelled on top of this; the general `Write` contract
is treated separately where a claim concerns it. -/
def objectWriteBufF (store : Store) (buf : List Nat) : WriteOut :=
  objectWriteBuf store buf buf.length

/-- The operation `ObjectStore.write(K, P)` of the specification: the canonical buffer
of kind and payload handed to the persisting tail of `Object::write`. -/
def objectStoreWrite (store : Store) (k : Kind) (p : List Nat) (n : Nat) : WriteOut :=
  objectWriteBuf store (encodeRecord k p) n

/-- A decoded record: kind, declared size, payload. -/
structure GotRecord where
  kind : Kind
  size : Nat
  contents : List Nat
deriving DecidableEq, Repr

/-- Failure modes of `Object::read` (lines 122–163), named after the
specification's taxonomy; `panicHeaderNoNul` is the `expect` on
`CStr::from_bytes_with_nul` — a Rust panic, not an error return. -/
inductive ReadErr where
  | panicHeaderNoNul
  | headerNotUtf8
  | malformedHeader
  | unknownKind
  | invalidLength
  | truncatedRecord
  | trailingBytes
  | objectNotFound
deriving DecidableEq, Repr

/-- The decoding portion of `Object::read` on the decompressed byte
stream: `read_until(0)` for the header, `CStr`/UTF-8 conversion,
`split_once(' ')`, the kind match, `size.parse::<usize>()`,
`read_exact(size)`, and the strict-EOF probe of one further byte. -/
def decodeRecord (bytes : List Nat) : Except ReadErr GotRecord :=
  match findNul bytes with
  | none => .error .panicHeaderNoNul
  | some i =>
    let headerBytes := bytes.take i
    if isValidUtf8 headerBytes then
      match splitAtByte 32 headerBytes with
      | none => .error .malformedHeader
      | some (kindTok, sizeTok) =>
        match kindOfBytes kindTok with
        | none => .error .unknownKind
        | some k =>
          match parseUsize sizeTok with
          | none => .error .invalidLength
          | some size =>
            let rest := bytes.drop (i + 1)
            if rest.length < size then .error .truncatedRecord
            else if size < rest.length then .error .trailingBytes
            else .ok ⟨k, size, rest.take size⟩
    else .error .headerNotUtf8

/-- Full `Object::read`: open the fan-out path of the digest (absent file →
`ObjectNotFound`), decompress, decode. -/
def objectRead (store : Store) (hexDigest : String) : Except ReadErr GotRecord :=
  match store (objectPath hexDigest) with
  | none => .error .objectNotFound
  | some bytes => decodeRecord bytes

/-- Failure modes of `commit_tree`.  `hexError` is the `?` on
`hex::decode`; the two panic constructors model `message.unwrap()` on
`None` and the `todo!()` body of `create_message`. -/
inductive CommitErr where
  | hexError
  | panicUnwrapNoMessage
  | panicTodoCreateMessage
deriving DecidableEq, Repr

/-- The commit payload assembled by `commit_tree` (lines 383–397): the
raw tree-digest bytes, then NUL-prefixed labelled sections, with the
parent section only when `has_parent` is set.  Arguments are the already
hex-decoded digests and the byte forms of the strings. -/
def commitBody (treeBytes : List Nat) (author timestamp message : List Nat)
    (parentBytes : Option (List Nat)) : List Nat :=
  let body := treeBytes
  let body := body ++ 0 :: ascii "author " ++ author
  let body := body ++ 0 :: ascii "timestamp " ++ timestamp
  let body := body ++ 0 :: ascii "message " ++ message
  match parentBytes with
  | some pb => body ++ 0 :: ascii "parent " ++ pb
  | none => body

/-- The function `commit_tree` (lines 369–412).  The author is the hard-coded
`"afoster"`; `nowString` is the ambient `Utc::now().to_string()` value
captured at build time.  Note the function validates nothing against the
store: `tree_hash` and `parent` are only hex-decoded, and the record is
written unconditionally.  The store is threaded through even on error
(on error, no write has happened and it is returned unchanged). -/
def commitTree (store : Store) (hasParent inlineMessage : Bool)
    (treeHash : String) (parent : Option String) (message : Option String)
    (nowString : String) : Store × Except CommitErr WriteOut :=
  match hexDecode treeHash with
  | none => (store, .error .hexError)
  | some hashBytes =>
    let m : Except CommitErr String :=
      if inlineMessage then
        match message with
        | some m => .ok m
        | none => .error .panicUnwrapNoMessage
      else .error .panicTodoCreateMessage
    match m with
    | .error e => (store, .error e)
    | .ok m =>
      let parentDecoded : Except CommitErr (Option (List Nat)) :=
        if hasParent then
          match parent with
          | none => (.error .panicUnwrapNoMessage)
          | some p =>
            match hexDecode p with
            | none => .error .hexError
            | some pb => .ok (some pb)
        else .ok none
      match parentDecoded with
      | .error e => (store, .error e)
      | .ok pb =>
        let body := commitBody hashBytes (ascii "afoster") (ascii nowString) (ascii m) pb
        let buf := ascii "commit " ++ decimalAscii body.length ++ [0] ++ body
        let out := objectWriteBufF store buf
        (out.store, .ok out)

/-- One line of `ls-tree` output: mode and name bytes, the kind read
back from the store, and the hex digest. -/
structure TreeEntryOut where
  mode : List Nat
  name : List Nat
  kind : Kind
  digestHex : String
deriving DecidableEq, Repr

/-- Failure modes of the `print_tree` scan.  The two panic constructors
model the `expect` on `CStr::from_bytes_until_nul` (no NUL before the
end of the buffer) and the out-of-range slice `&buf[start..end]` when
fewer than 20 bytes remain for the digest. -/
inductive TreeScanErr where
  | panicMissingNameNul
  | entryNotUtf8
  | noSpaceInEntry
  | panicDigestOutOfRange
  | readFailed (e : ReadErr)
deriving DecidableEq, Repr

/-- The loop body of `print_tree` (lines 238–265).  At the top of each
iteration `start = end = pos` (both are reset to the entry's end before
looping), so a single cursor suffices.  The fuel is structural recursion
budget; `printTree` passes `size + 1`, which always suffices because the
cursor advances by at least 21 per iteration.  On exhausted fuel the
(unreachable) answer is the accumulated entries. -/
def printTreeGo (store : Store) (buf : List Nat) (size : Nat) :
    Nat → Nat → List TreeEntryOut → Except TreeScanErr (List TreeEntryOut)
  | 0, _, acc => .ok acc
  | fuel + 1, pos, acc =>
    if pos < size then
      match findNul (buf.drop pos) with
      | none => .error .panicMissingNameNul
      | some itemLen =>
        let item := (buf.drop pos).take itemLen
        if isValidUtf8 item then
          match splitAtByte 32 item with
          | none => .error .noSpaceInEntry
          | some (mode, name) =>
            let start := pos + itemLen + 1
            let stop := start + 20
            if stop ≤ buf.length then
              let sha := (buf.drop start).take 20
              let hex := hexOfBytes sha
              match objectRead store hex with
              | .error e => .error (.readFailed e)
              | .ok r =>
                printTreeGo store buf size fuel stop
                  (acc ++ [⟨mode, name, r.kind, hex⟩])
            else .error .panicDigestOutOfRange
        else .error .entryNotUtf8
    else .ok acc

/-- Full `print_tree(buf, size)`: scan the tree payload, reading each entry's
object from the store to print its kind. -/
def printTree (store : Store) (buf : List Nat) (size : Nat) :
    Except TreeScanErr (List TreeEntryOut) :=
  printTreeGo store buf size (size + 1) 0 []

/-- A filesystem entry as `write_tree` classifies it via
`entry.metadata()`: a regular file (with its executable bit), a symbolic
link (with the bytes `File::open` on the link path reads), or a
directory with named children in iteration order.  Names and file
contents are byte lists. -/
inductive FsEntry where
  | file (contents : List Nat) (exec : Bool)
  | link (contents : List Nat)
  | dir (entries : List (List Nat × FsEntry))

/-- Failure mode of `write_tree`: the unconditional
`fs::File::open(".gotignore")?` at the top of every invocation. -/
inductive TreeBuildErr where
  | gotignoreOpenFailed
deriving DecidableEq, Repr

mutual

/-- The function `write_tree` (lines 306–359) over a directory's entry list.
`ignoreOpt` is the ambient result of opening and reading `.gotignore`
in the current working directory (`none`: the open failed); the
recursive calls re-open the same file, hence receive the same value.
I/O errors of `entry.metadata()` are environment failures outside the
model.  The store is threaded through even on error: on the
`.gotignore` failure nothing has been written and it returns
unchanged. -/
def writeTree (ignoreOpt : Option (List (List Nat)))
    (entries : List (List Nat × FsEntry)) (store : Store) :
    Store × Except TreeBuildErr WriteOut :=
  match ignoreOpt with
  | none => (store, .error .gotignoreOpenFailed)
  | some ignoreList =>
    match writeTreeEntries ignoreOpt ignoreList entries store with
    | (store1, .error e) => (store1, .error e)
    | (store1, .ok bodyBuf) =>
      let buf := ascii "tree " ++ decimalAscii bodyBuf.length ++ [0] ++ bodyBuf
      let out := objectWriteBufF store1 buf
      (out.store, .ok out)

/-- The entry loop of `write_tree`: skip ignored names, classify each
remaining entry, write the child object, and append
`"<mode> <name>\0<20 raw digest bytes>"` to the body buffer. -/
def writeTreeEntries (ignoreOpt : Option (List (List Nat)))
    (ignoreList : List (List Nat)) (entries : List (List Nat × FsEntry))
    (store : Store) : Store × Except TreeBuildErr (List Nat) :=
  match entries with
  | [] => (store, .ok [])
  | (name, e) :: rest =>
    if name ∈ ignoreList then writeTreeEntries ignoreOpt ignoreList rest store
    else
      let step : Store × Except TreeBuildErr (List Nat × List Nat) :=
        match e with
        | .dir sub =>
          match writeTree ignoreOpt sub store with
          | (store1, .error err) => (store1, .error err)
          | (store1, .ok out) => (store1, .ok (ascii "040000", out.digestBytes))
        | .link contents =>
          let out := objectWriteBufF store (hashObjectBuf contents)
          (out.store, .ok (ascii "120000", out.digestBytes))
        | .file contents exec =>
          let mode := if exec then ascii "100755" else ascii "100644"
          let out := objectWriteBufF store (hashObjectBuf contents)
          (out.store, .ok (mode, out.digestBytes))
      match step with
      | (store1, .error err) => (store1, .error err)
      | (store1, .ok (mode, digestBytes)) =>
        match writeTreeEntries ignoreOpt ignoreList rest store1 with
        | (store2, .error err) => (store2, .error err)
        | (store2, .ok restBody) =>
          (store2, .ok (mode ++ 32 :: name ++ 0 :: digestBytes ++ restBody))

end

end Got

namespace Got

set_option maxRecDepth 40000

/-! ## Helper lemmas -/

/-- Equality of `Except` results is decidable when both components'
equalities are. -/
instance {ε α : Type} [DecidableEq ε] [DecidableEq α] : DecidableEq (Except ε α)
  | .ok x, .ok y =>
    if h : x = y then .isTrue (congrArg Except.ok h)
    else .isFalse fun hc => h (Except.ok.inj hc)
  | .error x, .error y =>
    if h : x = y then .isTrue (congrArg Except.error h)
    else .isFalse fun hc => h (Except.error.inj hc)
  | .ok _, .error _ => .isFalse fun hc => Except.noConfusion hc
  | .error _, .ok _ => .isFalse fun hc => Except.noConfusion hc

/-- A list without a NUL, extended by a NUL and a tail, has its first
NUL exactly at the end of the original list. -/
theorem findNul_append_nul (item rest : List Nat) (h : findNul item = none) :
    findNul (item ++ 0 :: rest) = some item.length := by
  induction item with
  | nil => simp [findNul]
  | cons b t ih =>
    by_cases hb : b = 0
    · simp [findNul, hb] at h
    · have ht : findNul t = none := by
        simp only [findNul, if_neg hb] at h
        cases hft : findNul t with
        | none => rfl
        | some v => rw [hft] at h; simp at h
      simp [findNul, hb, ih ht]

/-- `bigEndianBytes` produces exactly `k` bytes. -/
theorem bigEndianBytes_length (k n : Nat) : (bigEndianBytes k n).length = k := by
  induction k generalizing n with
  | zero => rfl
  | succ k ih => simp [bigEndianBytes, ih]

/-- A SHA-1 digest is always 20 bytes. -/
theorem sha1_length (msg : List Nat) : (sha1 msg).length = 20 := by
  simp [sha1, bigEndianBytes_length]

/-- Hex rendering yields two characters per byte. -/
theorem hexOfBytes_length (bs : List Nat) : (hexOfBytes bs).length = 2 * bs.length := by
  have key : ∀ l : List Nat,
      (l.foldr (fun b acc => hexDigitChar (b / 16 % 16) :: hexDigitChar (b % 16) :: acc)
        ([] : List Char)).length = 2 * l.length := by
    intro l
    induction l with
    | nil => rfl
    | cons b t ih => simp only [List.foldr, List.length_cons, ih]; omega
  simpa [hexOfBytes, String.length] using key bs

/-- `hex::decode` consumes two characters per decoded byte. -/
theorem hexDecodeList_length : ∀ (l : List Char) (bs : List Nat),
    hexDecodeList l = some bs → l.length = 2 * bs.length
  | [], bs, h => by simp [hexDecodeList] at h; simp [← h]
  | [c], bs, h => by simp [hexDecodeList] at h
  | c1 :: c2 :: rest, bs, h => by
    simp only [hexDecodeList] at h
    cases hv1 : hexVal c1 with
    | none => rw [hv1] at h; simp at h
    | some hi =>
      cases hv2 : hexVal c2 with
      | none => rw [hv1, hv2] at h; simp at h
      | some lo =>
        cases hr : hexDecodeList rest with
        | none => rw [hv1, hv2, hr] at h; simp at h
        | some tl =>
          rw [hv1, hv2, hr] at h
          simp only [Option.some.injEq] at h
          subst h
          have ihl := hexDecodeList_length rest tl hr
          simp only [List.length_cons]
          omega

/-! ## Claim theorems -/

/-- C1: the claim requires the digest of every stored object to be
computed over the complete canonical bytes, independent of how many
bytes the streaming compressor's single `write` call accepts.  The code
instead hashes `buf[..n]` where `n` is the `encoder.write` return value
(`src/main.rs:187-188`); evaluated at the canonical blob for payload
`"hello\n"` with an accepted count of 12 (permitted by the `Write`
contract for the 13-byte buffer), the hashed span is a strict prefix and
the digest differs from the digest of the full canonical bytes. -/
theorem c1_digest_span_defect :
    12 ≤ (encodeRecord .blob (ascii "hello\n")).length ∧
    hashedSpan (encodeRecord .blob (ascii "hello\n")) 12 ≠
      encodeRecord .blob (ascii "hello\n") ∧
    (objectStoreWrite emptyStore .blob (ascii "hello\n") 12).digestHex ≠
      (objectStoreWrite emptyStore .blob (ascii "hello\n")
        (encodeRecord .blob (ascii "hello\n")).length).digestHex := by
  decide

/-- C3: the claim requires a hashed file's Blob payload to equal the
file's raw bytes in full, including bytes after a NUL.  The blob branch
of `Object::write` reads the file with `read_until(b'\x00')`
(`src/main.rs:178`), so for the 3-byte file `61 00 62` the payload is
the 2-byte prefix `61 00` and the header declares length 2, not 3. -/
theorem c3_blob_truncated_at_nul :
    readUntilNul [97, 0, 98] = [97, 0] ∧
    hashObjectBuf [97, 0, 98] = ascii "blob 2" ++ [0, 97, 0] ∧
    hashObjectBuf [97, 0, 98] ≠ encodeRecord .blob [97, 0, 98] := by
  decide

/-- C4: the claim `read(write(K, P)) = Record{K, P}` fails on the code
when the compressor's single `write` call accepts fewer bytes than the
canonical buffer: for `K = blob`, `P = "hello\n"` and 12 of 13 bytes
accepted, the stored record is truncated and reading the returned digest
fails with `TruncatedRecord`.  When the full buffer is accepted the
round trip holds, confirming the spec is the intent and the
derived-from-write-return hashing/persisting span is the defect. -/
theorem c4_read_after_write :
    objectRead (objectStoreWrite emptyStore .blob (ascii "hello\n") 12).store
      (objectStoreWrite emptyStore .blob (ascii "hello\n") 12).digestHex =
      .error .truncatedRecord ∧
    objectRead (objectStoreWrite emptyStore .blob (ascii "hello\n") 13).store
      (objectStoreWrite emptyStore .blob (ascii "hello\n") 13).digestHex =
      .ok ⟨.blob, 6, ascii "hello\n"⟩ := by
  decide

/-- C5 counterexample: the claim says writing blob payload `"hello\n"`
yields digest `f572d396fae9206628714fb2ce00f72e94f2258`.  The code's
digest of the canonical bytes `"blob 6\0hello\n"` is
`ce013625030ba8dba906f756967f9e9ca394464a`; the claimed string (the
SHA-1 of the raw payload alone, missing its final character) is not it,
and is 39 characters, violating the fixed-40 textual form. -/
theorem c5_counterexample :
    (objectWriteBufF emptyStore (hashObjectBuf (ascii "hello\n"))).digestHex ≠
      "f572d396fae9206628714fb2ce00f72e94f2258" ∧
    "f572d396fae9206628714fb2ce00f72e94f2258".length = 39 := by
  decide

/-- C5 as amended: writing the blob payload `"hello\n"` (canonical
encoding `"blob 6\0hello\n"`) yields the 40-character digest
`ce013625030ba8dba906f756967f9e9ca394464a`. -/
theorem c5_amended_hello_digest :
    hashObjectBuf (ascii "hello\n") = encodeRecord .blob (ascii "hello\n") ∧
    (objectWriteBufF emptyStore (hashObjectBuf (ascii "hello\n"))).digestHex =
      "ce013625030ba8dba906f756967f9e9ca394464a" ∧
    "ce013625030ba8dba906f756967f9e9ca394464a".length = 40 := by
  decide

/-- A prefix of an append is the left part. -/
theorem take_append_self (l1 l2 : List Nat) : (l1 ++ l2).take l1.length = l1 := by
  simp

/-- Dropping past a separator byte leaves the tail. -/
theorem drop_append_cons (l1 l2 : List Nat) (b : Nat) :
    (l1 ++ b :: l2).drop (l1.length + 1) = l2 := by
  have hsplit : l1 ++ b :: l2 = (l1 ++ [b]) ++ l2 := by simp
  rw [hsplit, show l1.length + 1 = (l1 ++ [b]).length by simp, List.drop_left]

/-- C2 counterexample: the tree digest of 40 zeros is absent from the
empty store, yet `commit_tree` succeeds and writes the commit record —
there is no `DanglingTreeReference` check anywhere in
`src/main.rs:369-412` (the function only hex-decodes its arguments). -/
theorem c2_counterexample :
    objectRead emptyStore "0000000000000000000000000000000000000000" =
      .error .objectNotFound ∧
    (commitTree emptyStore false true "0000000000000000000000000000000000000000"
        none (some "msg") "2026-01-01 00:00:00 UTC").2.map (fun o => o.digestHex) =
      .ok "415a71f576ebbb874a2fd9594b1849eb536ba182" ∧
    ((commitTree emptyStore false true "0000000000000000000000000000000000000000"
        none (some "msg") "2026-01-01 00:00:00 UTC").1
      (objectPath "415a71f576ebbb874a2fd9594b1849eb536ba182")).isSome = true := by
  decide

/-- C2 as amended: `commit_tree` performs no store validation at all.
For every store — whether or not the tree digest resolves — and every
hex-decodable `tree_hash` with an inline message, the call succeeds and
unconditionally writes the assembled commit record; no
`DanglingTreeReference` / `DanglingParentReference` error exists. -/
theorem c2_amended_no_validation (store : Store) (treeHash m now : String)
    (tb : List Nat) (h : hexDecode treeHash = some tb) :
    (commitTree store false true treeHash none (some m) now).2.isOk = true ∧
    (commitTree store false true treeHash none (some m) now).1 =
      (objectWriteBufF store (ascii "commit " ++
        decimalAscii (commitBody tb (ascii "afoster") (ascii now) (ascii m) none).length ++
        [0] ++ commitBody tb (ascii "afoster") (ascii now) (ascii m) none)).store := by
  simp [commitTree, h, Except.isOk, Except.toBool]

/-- Witness for `c2_amended_no_validation` at the empty store and the
all-zero tree digest. -/
theorem c2_amended_no_validation_witness :
    hexDecode "0000000000000000000000000000000000000000" =
      some (List.replicate 20 0) ∧
    ((commitTree emptyStore false true "0000000000000000000000000000000000000000"
        none (some "msg") "now").2.isOk = true ∧
      (commitTree emptyStore false true "0000000000000000000000000000000000000000"
        none (some "msg") "now").1 =
        (objectWriteBufF emptyStore (ascii "commit " ++
          decimalAscii (commitBody (List.replicate 20 0) (ascii "afoster")
            (ascii "now") (ascii "msg") none).length ++
          [0] ++ commitBody (List.replicate 20 0) (ascii "afoster")
            (ascii "now") (ascii "msg") none)).store) :=
  ⟨by decide,
    c2_amended_no_validation emptyStore "0000000000000000000000000000000000000000"
      "msg" "now" (List.replicate 20 0) (by decide)⟩

/-- C6: the commit payload is laid out as the 20 raw tree-digest bytes,
NUL, `"author "` plus the author, NUL, `"timestamp "` plus the timestamp
string, NUL, `"message "` plus the message, and — only when a parent is
supplied — a trailing NUL, `"parent "` and the raw parent-digest bytes.
The tree bytes come from hex-decoding the 40-character digest argument,
hence are 20 bytes. -/
theorem c6_commit_payload_layout (treeHash : String) (tb author ts msg : List Nat)
    (pb : Option (List Nat)) (hdec : hexDecode treeHash = some tb)
    (hlen : treeHash.length = 40) :
    tb.length = 20 ∧
    commitBody tb author ts msg pb =
      tb ++ 0 :: ascii "author " ++ author ++ 0 :: ascii "timestamp " ++ ts ++
        0 :: ascii "message " ++ msg ++
        (match pb with
          | none => []
          | some b => 0 :: ascii "parent " ++ b) := by
  constructor
  · have h2 := hexDecodeList_length treeHash.data tb hdec
    have hd : treeHash.data.length = 40 := hlen
    omega
  · cases pb <;> simp [commitBody, List.append_assoc]

/-- Witness for `c6_commit_payload_layout` with a parent supplied. -/
theorem c6_commit_payload_layout_witness :
    hexDecode "0000000000000000000000000000000000000000" =
      some (List.replicate 20 0) ∧
    "0000000000000000000000000000000000000000".length = 40 ∧
    ((List.replicate 20 (0 : Nat)).length = 20 ∧
      commitBody (List.replicate 20 0) (ascii "afoster") (ascii "t") (ascii "m")
          (some (List.replicate 20 1)) =
        List.replicate 20 0 ++ 0 :: ascii "author " ++ ascii "afoster" ++
          0 :: ascii "timestamp " ++ ascii "t" ++
          0 :: ascii "message " ++ ascii "m" ++
          (match some (List.replicate 20 (1 : Nat)) with
            | none => []
            | some b => 0 :: ascii "parent " ++ b)) :=
  ⟨by decide, by decide,
    c6_commit_payload_layout "0000000000000000000000000000000000000000"
      (List.replicate 20 0) (ascii "afoster") (ascii "t") (ascii "m")
      (some (List.replicate 20 1)) (by decide) (by decide)⟩

/-- C9: writing the same (kind, payload) twice — with the compressor
accepting the same count — returns the same digest, stores the same
bytes at the same fan-out path `.got/objects/<first two hex chars>/<38
remaining>`, and leaves the store exactly as after one write. -/
theorem c9_write_idempotent (store : Store) (k : Kind) (p : List Nat) (n : Nat)
    (h : n ≤ (encodeRecord k p).length) :
    (objectStoreWrite (objectStoreWrite store k p n).store k p n).digestHex =
      (objectStoreWrite store k p n).digestHex ∧
    (objectStoreWrite (objectStoreWrite store k p n).store k p n).path =
      (objectStoreWrite store k p n).path ∧
    (objectStoreWrite (objectStoreWrite store k p n).store k p n).stored =
      (objectStoreWrite store k p n).stored ∧
    (objectStoreWrite (objectStoreWrite store k p n).store k p n).store =
      (objectStoreWrite store k p n).store ∧
    (objectStoreWrite store k p n).path =
      ".got/objects/" ++
        String.mk ((objectStoreWrite store k p n).digestHex.data.take 2) ++ "/" ++
        String.mk ((objectStoreWrite store k p n).digestHex.data.drop 2) ∧
    (objectStoreWrite store k p n).digestHex.length = 40 := by
  refine ⟨rfl, rfl, rfl, ?_, rfl, ?_⟩
  · funext q
    simp only [objectStoreWrite, objectWriteBuf, updateStore]
    by_cases hq : q = objectPath (hexOfBytes (sha1 (hashedSpan (encodeRecord k p) n))) <;>
      simp [hq]
  · simp [objectStoreWrite, objectWriteBuf, hexOfBytes_length, sha1_length]

/-- Witness for `c9_write_idempotent` at the empty store, an empty blob
payload, and an accepted count of 2. -/
theorem c9_write_idempotent_witness :
    2 ≤ (encodeRecord .blob []).length ∧
    ((objectStoreWrite (objectStoreWrite emptyStore .blob [] 2).store .blob [] 2).digestHex =
      (objectStoreWrite emptyStore .blob [] 2).digestHex ∧
    (objectStoreWrite (objectStoreWrite emptyStore .blob [] 2).store .blob [] 2).path =
      (objectStoreWrite emptyStore .blob [] 2).path ∧
    (objectStoreWrite (objectStoreWrite emptyStore .blob [] 2).store .blob [] 2).stored =
      (objectStoreWrite emptyStore .blob [] 2).stored ∧
    (objectStoreWrite (objectStoreWrite emptyStore .blob [] 2).store .blob [] 2).store =
      (objectStoreWrite emptyStore .blob [] 2).store ∧
    (objectStoreWrite emptyStore .blob [] 2).path =
      ".got/objects/" ++
        String.mk ((objectStoreWrite emptyStore .blob [] 2).digestHex.data.take 2) ++ "/" ++
        String.mk ((objectStoreWrite emptyStore .blob [] 2).digestHex.data.drop 2) ∧
    (objectStoreWrite emptyStore .blob [] 2).digestHex.length = 40) :=
  ⟨by decide, c9_write_idempotent emptyStore .blob [] 2 (by decide)⟩

/-- C7 counterexample: the claim says tree-payload decoding is total,
failing only with `MalformedTreeEntry`, `TruncatedTreeEntry` or
`TrailingTreeBytes`.  The code instead panics: a payload whose entry has
no NUL terminator hits the `expect` on `CStr::from_bytes_until_nul`
(`src/main.rs:242-243`), a payload with fewer than 20 bytes after the
NUL hits the out-of-range slice `&buf[start..end]` (`src/main.rs:252`),
and a trailing byte after a well-formed entry is parsed as a further
(malformed) entry rather than reported as trailing bytes. -/
theorem c7_counterexample :
    printTree emptyStore [53] 1 = .error .panicMissingNameNul ∧
    printTree emptyStore (ascii "100644 a" ++ [0, 1, 2, 3]) 12 =
      .error .panicDigestOutOfRange ∧
    printTree
        (updateStore emptyStore
          (objectPath "0000000000000000000000000000000000000000")
          (encodeRecord .blob []))
        (ascii "100644 a" ++ 0 :: List.replicate 20 0 ++ [0]) 30 =
      .error .noSpaceInEntry := by
  decide

/-- C7 as amended: the scan never reads outside the buffer (Rust bounds
checks abort instead), but malformed payloads panic rather than fail
with the claimed named errors: any payload without a NUL panics at the
`expect`, and any entry followed by fewer than 20 digest bytes panics at
the slice. -/
theorem c7_amended_panics (store : Store) (buf1 : List Nat) (size1 : Nat)
    (h1a : 0 < size1) (h1b : findNul buf1 = none)
    (item rest mode name : List Nat) (size2 : Nat) (h2a : 0 < size2)
    (h2b : findNul item = none) (h2c : isValidUtf8 item = true)
    (h2d : splitAtByte 32 item = some (mode, name)) (h2e : rest.length < 20) :
    printTree store buf1 size1 = .error .panicMissingNameNul ∧
    printTree store (item ++ 0 :: rest) size2 = .error .panicDigestOutOfRange := by
  constructor
  · simp [printTree, printTreeGo, h1a, h1b]
  · have hfn := findNul_append_nul item rest h2b
    have htk : (item ++ 0 :: rest).take item.length = item := take_append_self item _
    simp [printTree, printTreeGo, h2a, hfn, htk, h2c, h2d]
    intro hcon
    exact absurd hcon (by omega)

/-- Witness for `c7_amended_panics`: a NUL-free one-byte payload and a
payload whose entry is followed by a single digest byte. -/
theorem c7_amended_panics_witness :
    (0 < 1 ∧ findNul [54] = none ∧ findNul (ascii "100644 b") = none ∧
      isValidUtf8 (ascii "100644 b") = true ∧
      splitAtByte 32 (ascii "100644 b") = some (ascii "100644", ascii "b") ∧
      [5].length < 20) ∧
    (printTree emptyStore [54] 1 = .error .panicMissingNameNul ∧
      printTree emptyStore (ascii "100644 b" ++ 0 :: [5]) 1 =
        .error .panicDigestOutOfRange) :=
  ⟨by decide,
    c7_amended_panics emptyStore [54] 1 (by decide) (by decide)
      (ascii "100644 b") [5] (ascii "100644") (ascii "b") 1
      (by decide) (by decide) (by decide) (by decide) (by decide)⟩

/-- C8: the decode error taxonomy of `Object::read` on a stored byte
stream `header ++ NUL ++ tail` (the header holding no interior NUL and
being valid UTF-8, as the code checks first): a header with no space
fails with `MalformedHeader`; a recognised kind with an unparsable
length token fails with `InvalidLength`; a kind token outside
{blob, tree, commit, tag} fails with `UnknownKind`; fewer remaining
bytes than the declared length fail with `TruncatedRecord`; and bytes
remaining past the declared payload fail with `TrailingBytes`. -/
theorem c8_decode_error_taxonomy
    (h1 t1 : List Nat) (h1nn : findNul h1 = none)
    (h1u : isValidUtf8 h1 = true) (h1ns : splitAtByte 32 h1 = none)
    (h2 t2 : List Nat) (kt2 st2 : List Nat) (k2 : Kind)
    (h2nn : findNul h2 = none) (h2u : isValidUtf8 h2 = true)
    (h2sp : splitAtByte 32 h2 = some (kt2, st2))
    (h2k : kindOfBytes kt2 = some k2) (h2len : parseUsize st2 = none)
    (h3 t3 : List Nat) (kt3 st3 : List Nat)
    (h3nn : findNul h3 = none) (h3u : isValidUtf8 h3 = true)
    (h3sp : splitAtByte 32 h3 = some (kt3, st3)) (h3k : kindOfBytes kt3 = none)
    (h4 t4 : List Nat) (kt4 st4 : List Nat) (k4 : Kind) (n4 : Nat)
    (h4nn : findNul h4 = none) (h4u : isValidUtf8 h4 = true)
    (h4sp : splitAtByte 32 h4 = some (kt4, st4))
    (h4k : kindOfBytes kt4 = some k4) (h4sz : parseUsize st4 = some n4)
    (h4tr : t4.length < n4)
    (h5 t5 : List Nat) (kt5 st5 : List Nat) (k5 : Kind) (n5 : Nat)
    (h5nn : findNul h5 = none) (h5u : isValidUtf8 h5 = true)
    (h5sp : splitAtByte 32 h5 = some (kt5, st5))
    (h5k : kindOfBytes kt5 = some k5) (h5sz : parseUsize st5 = some n5)
    (h5tl : n5 < t5.length) :
    decodeRecord (h1 ++ 0 :: t1) = .error .malformedHeader ∧
    decodeRecord (h2 ++ 0 :: t2) = .error .invalidLength ∧
    decodeRecord (h3 ++ 0 :: t3) = .error .unknownKind ∧
    decodeRecord (h4 ++ 0 :: t4) = .error .truncatedRecord ∧
    decodeRecord (h5 ++ 0 :: t5) = .error .trailingBytes := by
  refine ⟨?_, ?_, ?_, ?_, ?_⟩
  · simp [decodeRecord, findNul_append_nul h1 t1 h1nn, take_append_self,
      drop_append_cons, h1u, h1ns]
  · simp [decodeRecord, findNul_append_nul h2 t2 h2nn, take_append_self,
      drop_append_cons, h2u, h2sp, h2k, h2len]
  · simp [decodeRecord, findNul_append_nul h3 t3 h3nn, take_append_self,
      drop_append_cons, h3u, h3sp, h3k]
  · simp [decodeRecord, findNul_append_nul h4 t4 h4nn, take_append_self,
      drop_append_cons, h4u, h4sp, h4k, h4sz, h4tr]
  · have h5no : ¬(t5.length < n5) := by omega
    simp [decodeRecord, findNul_append_nul h5 t5 h5nn, take_append_self,
      drop_append_cons, h5u, h5sp, h5k, h5sz, h5no, h5tl]

/-- Witness for `c8_decode_error_taxonomy` on five concrete streams:
`"blobnospace\0"`, `"blob abc\0"`, `"blobx 3\0"`, `"blob 5\0"` with a
2-byte tail, and `"blob 1\0"` with a 3-byte tail. -/
theorem c8_decode_error_taxonomy_witness :
    (findNul (ascii "blobnospace") = none ∧
      isValidUtf8 (ascii "blobnospace") = true ∧
      splitAtByte 32 (ascii "blobnospace") = none ∧
      findNul (ascii "blob abc") = none ∧
      isValidUtf8 (ascii "blob abc") = true ∧
      splitAtByte 32 (ascii "blob abc") = some (ascii "blob", ascii "abc") ∧
      kindOfBytes (ascii "blob") = some .blob ∧
      parseUsize (ascii "abc") = none ∧
      findNul (ascii "blobx 3") = none ∧
      isValidUtf8 (ascii "blobx 3") = true ∧
      splitAtByte 32 (ascii "blobx 3") = some (ascii "blobx", ascii "3") ∧
      kindOfBytes (ascii "blobx") = none ∧
      findNul (ascii "blob 5") = none ∧
      isValidUtf8 (ascii "blob 5") = true ∧
      splitAtByte 32 (ascii "blob 5") = some (ascii "blob", ascii "5") ∧
      kindOfBytes (ascii "blob") = some .blob ∧
      parseUsize (ascii "5") = some 5 ∧ [1, 2].length < 5 ∧
      findNul (ascii "blob 1") = none ∧
      isValidUtf8 (ascii "blob 1") = true ∧
      splitAtByte 32 (ascii "blob 1") = some (ascii "blob", ascii "1") ∧
      kindOfBytes (ascii "blob") = some .blob ∧
      parseUsize (ascii "1") = some 1 ∧ 1 < [1, 2, 3].length) ∧
    (decodeRecord (ascii "blobnospace" ++ 0 :: []) = .error .malformedHeader ∧
      decodeRecord (ascii "blob abc" ++ 0 :: []) = .error .invalidLength ∧
      decodeRecord (ascii "blobx 3" ++ 0 :: []) = .error .unknownKind ∧
      decodeRecord (ascii "blob 5" ++ 0 :: [1, 2]) = .error .truncatedRecord ∧
      decodeRecord (ascii "blob 1" ++ 0 :: [1, 2, 3]) = .error .trailingBytes) :=
  ⟨by decide,
    c8_decode_error_taxonomy
      (ascii "blobnospace") [] (by decide) (by decide) (by decide)
      (ascii "blob abc") [] (ascii "blob") (ascii "abc") .blob
      (by decide) (by decide) (by decide) (by decide) (by decide)
      (ascii "blobx 3") [] (ascii "blobx") (ascii "3")
      (by decide) (by decide) (by decide) (by decide)
      (ascii "blob 5") [1, 2] (ascii "blob") (ascii "5") .blob 5
      (by decide) (by decide) (by decide) (by decide) (by decide) (by decide)
      (ascii "blob 1") [1, 2, 3] (ascii "blob") (ascii "1") .blob 1
      (by decide) (by decide) (by decide) (by decide) (by decide) (by decide)⟩

/-- C10: `write_tree` opens `.gotignore` in the current working
directory before touching any entry (`src/main.rs:307-308`); whenever
that open fails, every invocation — for every directory input, including
one with nothing to ignore — fails with the ignore-file error and leaves
the store unchanged, writing no tree record. -/
theorem c10_gotignore_required (entries : List (List Nat × FsEntry)) (store : Store) :
    writeTree none entries store = (store, .error .gotignoreOpenFailed) := by
  rw [writeTree]

end Got
